import Mathlib

/-!
Verification of the geometric core of the CuraEngine slicing repository:
the distributed beading strategy (src/BeadingStrategy/DistributedBeadingStrategy.cpp)
and the polygon/polyline simplifier (src/utils/Simplify.cpp), shallowly embedded
over exact integer arithmetic (`coord_t` is a 64-bit integer in the engine; the
arithmetic the claims exercise stays far from overflow, so `Int` models it).
-/

set_option maxRecDepth 40000

namespace CuraEngine

/-! ## Geometric primitives -/

structure Point where
  x : Int
  y : Int
deriving DecidableEq

def origin : Point := ⟨0, 0⟩

instance : Sub Point := ⟨fun a b => ⟨a.x - b.x, a.y - b.y⟩⟩

def dot (a b : Point) : Int := a.x * b.x + a.y * b.y

def cross (a b : Point) : Int := a.x * b.y - a.y * b.x

def vSize2 (a : Point) : Int := a.x * a.x + a.y * a.y

/-- `std::numeric_limits<coord_t>::max()` for the 64-bit `coord_t`. -/
def coordMax : Int := 2 ^ 63 - 1

/-- Modelled from the spec: `LinearAlg2D::getDist2FromLine` (linearAlg2D.h is not under
src/). The squared perpendicular distance from `p` to the infinite line through `a` and
`b`: the exact value is `cross(b-a, p-a)^2 / |b-a|^2`, computed here with integer
division (both operands are nonnegative, so Euclidean and C truncating division agree). -/
def getDist2FromLine (p a b : Point) : Int :=
  cross (b - a) (p - a) ^ 2 / vSize2 (b - a)

/-- Modelled from the spec: `LinearAlg2D::lineLineIntersection` (linearAlg2D.h is not
under src/). Intersection of the infinite lines through `a,b` and through `c,d` by
Cramer's rule, `none` when the lines are parallel, coordinates rounded to integers. -/
def lineLineIntersection (a b c d : Point) : Option Point :=
  let den := cross (b - a) (d - c)
  if den = 0 then none
  else
    let num := cross (c - a) (d - c)
    some ⟨a.x + (b.x - a.x) * num / den, a.y + (b.y - a.y) * num / den⟩

/-- Modelled from the spec: the derived noise floor `min_resolution` of the simplifier
(Simplify.h is not under src/). The spec calls it a numerical noise floor of 5 length
units, and the in-src ExtrusionLine.h comments speak of "the rounding error of
5 micron". -/
def min_resolution : Int := 5

/-! ## DistributedBeadingStrategy (src/BeadingStrategy/DistributedBeadingStrategy.cpp) -/

structure Beading where
  total_thickness : Int
  bead_widths : List Int
  toolpath_locations : List Int
  left_over : Int
deriving DecidableEq

/-- Configuration of the distributed beading strategy. The header declaring the field
types is not under src/; `optimal_width` is an integer coordinate. Modelled from the
spec: `wall_transition_threshold` is a real-valued threshold fraction, represented here
as the exact rational `threshold_num / threshold_den` with `threshold_den > 0`. -/
structure DistributedBeadingStrategy where
  optimal_width : Int
  threshold_num : Int
  threshold_den : Int
deriving DecidableEq

def DistributedBeadingStrategy.compute (_strat : DistributedBeadingStrategy)
    (thickness bead_count : Int) : Beading :=
  if 0 < bead_count then
    { total_thickness := thickness
      bead_widths := List.replicate bead_count.toNat (thickness / bead_count)
      toolpath_locations := (List.range bead_count.toNat).map
        (fun (bead_idx : Nat) => thickness * ((bead_idx : Int) * 2 + 1) / bead_count / 2)
      left_over := 0 }
  else
    { total_thickness := thickness
      bead_widths := []
      toolpath_locations := []
      left_over := thickness }

def DistributedBeadingStrategy.getOptimalThickness (strat : DistributedBeadingStrategy)
    (bead_count : Int) : Int :=
  bead_count * strat.optimal_width

/-- The source computes `lower_bead_count * optimal_width + optimal_width *
wall_transition_threshold` where the second product is real-valued and the result is
converted to an integer coordinate; the nonnegative products of interest truncate
downward, modelled by integer division with the threshold fraction. -/
def DistributedBeadingStrategy.getTransitionThickness (strat : DistributedBeadingStrategy)
    (lower_bead_count : Int) : Int :=
  lower_bead_count * strat.optimal_width +
    strat.optimal_width * strat.threshold_num / strat.threshold_den

def DistributedBeadingStrategy.getOptimalBeadCount (strat : DistributedBeadingStrategy)
    (thickness : Int) : Int :=
  (thickness + strat.optimal_width / 2) / strat.optimal_width

/-! ## Helper lemmas on integer division -/

theorem ediv_ediv_two (x b : Int) (hx : 0 ≤ x) (hb : 0 < b) :
    x / b / 2 = x / (2 * b) := by
  lift x to ℕ using hx
  lift b to ℕ using hb.le
  norm_cast
  rw [Nat.div_div_eq_div_mul, Nat.mul_comm]

/-- The specification of `compute` claimed by C4, phrased against the embedded code. -/
def computeSpec (strat : DistributedBeadingStrategy) (thickness bead_count : Int) : Prop :=
  (strat.compute thickness bead_count).bead_widths.length = bead_count.toNat
  ∧ (strat.compute thickness bead_count).toolpath_locations.length = bead_count.toNat
  ∧ (∀ w ∈ (strat.compute thickness bead_count).bead_widths, w = thickness / bead_count)
  ∧ (strat.compute thickness bead_count).left_over = 0
  ∧ ∀ i : Nat, ∀ h : i < (strat.compute thickness bead_count).toolpath_locations.length,
      (strat.compute thickness bead_count).toolpath_locations.get ⟨i, h⟩ =
        thickness * (2 * (i : Int) + 1) / (2 * bead_count)

/-- C4: for every thickness ≥ 0 and bead_count > 0, `compute` returns exactly
`bead_count` widths all equal to `thickness / bead_count` (integer division),
`left_over = 0`, and `toolpath_locations[i] = thickness*(2i+1)/(2*bead_count)` under
integer division — in particular dividing by `bead_count` first and then by 2, as the
code does, yields the same value. -/
theorem C4_compute_tiling (strat : DistributedBeadingStrategy) (thickness bead_count : Int)
    (ht : 0 ≤ thickness) (hb : 0 < bead_count) :
    computeSpec strat thickness bead_count := by
  have hco : strat.compute thickness bead_count =
      { total_thickness := thickness
        bead_widths := List.replicate bead_count.toNat (thickness / bead_count)
        toolpath_locations := (List.range bead_count.toNat).map
          (fun (bead_idx : Nat) => thickness * ((bead_idx : Int) * 2 + 1) / bead_count / 2)
        left_over := 0 } := by
    unfold DistributedBeadingStrategy.compute
    rw [if_pos hb]
  unfold computeSpec
  rw [hco]
  dsimp only
  refine ⟨by simp, by simp, fun w hw => List.eq_of_mem_replicate hw,
    rfl, fun i h => ?_⟩
  have hnum : 0 ≤ thickness * ((i : Int) * 2 + 1) :=
    mul_nonneg ht (by positivity)
  simp only [List.get_eq_getElem, List.getElem_map, List.getElem_range]
  rw [ediv_ediv_two _ _ hnum hb, mul_comm (i : Int) 2]

theorem C4_compute_tiling_witness :
    (0 : Int) ≤ 10 ∧ (0 : Int) < 4 ∧ computeSpec ⟨400, 1, 2⟩ 10 4 :=
  ⟨by decide, by decide, C4_compute_tiling ⟨400, 1, 2⟩ 10 4 (by decide) (by decide)⟩

/-- C3 (counterexample): `compute(thickness=10, bead_count=4)` does not return the
claimed fractional toolpath locations `[1.25, 3.75, 6.25, 8.75]` — the code works in
integer coordinates. -/
theorem C3_locations_counterexample :
    ¬ (((DistributedBeadingStrategy.mk 400 1 2).compute 10 4).toolpath_locations.map
        (fun z => (z : ℚ)) = [5 / 4, 15 / 4, 25 / 4, 35 / 4]) := by
  intro hc
  have h : ((DistributedBeadingStrategy.mk 400 1 2).compute 10 4).toolpath_locations
      = [1, 3, 6, 8] := by decide
  rw [h] at hc
  norm_num [List.map_cons] at hc

/-- C3 (amended): `compute(10, 4)` returns widths `[2,2,2,2]`, toolpath locations
`[1, 3, 6, 8]` (integer division truncates the exact centers 1.25, 3.75, 6.25, 8.75),
and `left_over = 0`. -/
theorem C3_compute_10_4 :
    (DistributedBeadingStrategy.mk 400 1 2).compute 10 4 =
      { total_thickness := 10
        bead_widths := [2, 2, 2, 2]
        toolpath_locations := [1, 3, 6, 8]
        left_over := 0 } := by decide

/-- C5: with a positive configured `optimal_width`, `getOptimalBeadCount` recovers `n`
from `getOptimalThickness n` for every nonnegative integer `n`. -/
theorem C5_round_trip (strat : DistributedBeadingStrategy) (n : Int)
    (_hn : 0 ≤ n) (hw : 0 < strat.optimal_width) :
    strat.getOptimalBeadCount (strat.getOptimalThickness n) = n := by
  unfold DistributedBeadingStrategy.getOptimalBeadCount
    DistributedBeadingStrategy.getOptimalThickness
  have hw' : strat.optimal_width ≠ 0 := hw.ne'
  have h2 : 0 ≤ strat.optimal_width / 2 := Int.ediv_nonneg hw.le (by norm_num)
  have h3 : strat.optimal_width / 2 < strat.optimal_width := by omega
  rw [add_comm, mul_comm n strat.optimal_width, Int.add_mul_ediv_left _ n hw',
    Int.ediv_eq_zero_of_lt h2 h3, zero_add]

theorem C5_round_trip_witness :
    (0 : Int) ≤ 7 ∧ (0 : Int) < (DistributedBeadingStrategy.mk 3 1 2).optimal_width ∧
      (DistributedBeadingStrategy.mk 3 1 2).getOptimalBeadCount
        ((DistributedBeadingStrategy.mk 3 1 2).getOptimalThickness 7) = 7 :=
  ⟨by decide, by decide, C5_round_trip ⟨3, 1, 2⟩ 7 (by decide) (by decide)⟩

/-- C6 (counterexample): with `optimal_width = 2` and threshold `3/10` (which is `> 0`
and `< 1`), the real product `optimal_width * threshold = 0.6` truncates to the integer
coordinate 0, so `getTransitionThickness 1 = getOptimalThickness 1 = 2` and the claimed
strict inequality `getTransitionThickness n > getOptimalThickness n` fails. -/
theorem C6_strictness_counterexample :
    (0 : Int) < 3 ∧ (3 : Int) < 10 ∧
      ¬ ((DistributedBeadingStrategy.mk 2 3 10).getOptimalThickness 1 <
          (DistributedBeadingStrategy.mk 2 3 10).getTransitionThickness 1) := by decide

/-- C6 (amended): the lower strict inequality `getOptimalThickness n <
getTransitionThickness n` holds whenever the real offset `optimal_width *
wall_transition_threshold` is at least one integer coordinate unit (so that the
conversion to an integer does not collapse it to 0), and the upper strict inequality
`getTransitionThickness n < getOptimalThickness (n+1)` holds whenever the threshold
fraction is nonnegative and `< 1`. -/
theorem C6_transition_band (strat : DistributedBeadingStrategy) (n : Int)
    (hd : 0 < strat.threshold_den) (hw : 0 < strat.optimal_width) :
    (strat.threshold_den ≤ strat.optimal_width * strat.threshold_num →
        strat.getOptimalThickness n < strat.getTransitionThickness n)
    ∧ (0 ≤ strat.threshold_num → strat.threshold_num < strat.threshold_den →
        strat.getTransitionThickness n < strat.getOptimalThickness (n + 1)) := by
  unfold DistributedBeadingStrategy.getOptimalThickness
    DistributedBeadingStrategy.getTransitionThickness
  constructor
  · intro h
    have h1 : 1 ≤ strat.optimal_width * strat.threshold_num / strat.threshold_den :=
      (Int.le_ediv_iff_mul_le hd).mpr (by omega)
    omega
  · intro h0 h1
    have h2 : strat.optimal_width * strat.threshold_num / strat.threshold_den
        < strat.optimal_width :=
      (Int.ediv_lt_iff_lt_mul hd).mpr (by
        exact mul_lt_mul_of_pos_left h1 hw)
    nlinarith [h2]

theorem C6_transition_band_witness :
    (0 : Int) < (10 : Int) ∧ (0 : Int) < (2 : Int) ∧
      (((DistributedBeadingStrategy.mk 2 5 10).threshold_den ≤
          (DistributedBeadingStrategy.mk 2 5 10).optimal_width *
            (DistributedBeadingStrategy.mk 2 5 10).threshold_num →
        (DistributedBeadingStrategy.mk 2 5 10).getOptimalThickness 3 <
          (DistributedBeadingStrategy.mk 2 5 10).getTransitionThickness 3)
      ∧ (0 ≤ (DistributedBeadingStrategy.mk 2 5 10).threshold_num →
          (DistributedBeadingStrategy.mk 2 5 10).threshold_num <
            (DistributedBeadingStrategy.mk 2 5 10).threshold_den →
        (DistributedBeadingStrategy.mk 2 5 10).getTransitionThickness 3 <
          (DistributedBeadingStrategy.mk 2 5 10).getOptimalThickness (3 + 1))) :=
  ⟨by decide, by decide, C6_transition_band ⟨2, 5, 10⟩ 3 (by decide) (by decide)⟩

/-! ## The polygon / polyline simplifier (src/utils/Simplify.cpp)

The C++ class `Simplify` holds the three configured tolerances; `min_resolution` is the
fixed noise floor modelled above. Vertices are addressed by index; `to_delete` is the
transient marker set of the source. The C++ helpers `nextNotDeleted` and
`previousNotDeleted` scan cyclically for the first unmarked index and diverge when every
index is marked; the embedding gives the scan `size` steps of fuel and falls back to the
start index, which coincides with the source whenever an unmarked index exists. -/

def findNotDeleted (to_delete : List Bool) (advance : Nat → Nat) : Nat → Nat → Nat
  | 0, index => index
  | fuel + 1, index =>
    if to_delete.getD index true then
      findNotDeleted to_delete advance fuel (advance index)
    else index

def nextNotDeleted (index : Nat) (to_delete : List Bool) : Nat :=
  findNotDeleted to_delete (fun i => (i + 1) % to_delete.length) to_delete.length
    ((index + 1) % to_delete.length)

def previousNotDeleted (index : Nat) (to_delete : List Bool) : Nat :=
  findNotDeleted to_delete (fun i => (i + to_delete.length - 1) % to_delete.length)
    to_delete.length ((index + to_delete.length - 1) % to_delete.length)

structure Simplify where
  max_resolution : Int
  max_deviation : Int
  max_area_deviation : Int
deriving DecidableEq

def Simplify.importance (s : Simplify) (polygon : List Point) (to_delete : List Bool)
    (index : Nat) (is_closed : Bool) : Int :=
  let poly_size := polygon.length
  if is_closed = false ∧ (index = 0 ∨ index = poly_size - 1) then
    coordMax -- Endpoints of the polyline must always be retained.
  else
    let vertex := polygon.getD index origin
    let before := polygon.getD (previousNotDeleted index to_delete) origin
    let after := polygon.getD (nextNotDeleted index to_delete) origin
    let deviation2 := getDist2FromLine vertex before after
    if deviation2 ≤ min_resolution * min_resolution then
      deviation2
    else if vSize2 (before - vertex) > s.max_resolution * s.max_resolution
        ∧ vSize2 (after - vertex) > s.max_resolution * s.max_resolution then
      coordMax -- Long line segments, no need to remove this one.
    else deviation2

def Simplify.remove (s : Simplify) (polygon : List Point) (to_delete : List Bool)
    (vertex : Nat) (deviation2 : Int) (is_closed : Bool) : List Point × List Bool :=
  if deviation2 ≤ min_resolution * min_resolution then
    -- At less than the minimum resolution we're always allowed to delete the vertex.
    (polygon, to_delete.set vertex true)
  else
    let before := previousNotDeleted vertex to_delete
    let after := nextNotDeleted vertex to_delete
    let vertex_position := polygon.getD vertex origin
    let before_position := polygon.getD before origin
    let after_position := polygon.getD after origin
    let length2_before := vSize2 (vertex_position - before_position)
    let length2_after := vSize2 (vertex_position - after_position)
    if length2_before ≤ s.max_resolution * s.max_resolution
        ∧ length2_after ≤ s.max_resolution * s.max_resolution then
      -- Both adjacent line segments are short: removing this vertex does little harm.
      (polygon, to_delete.set vertex true)
    else if length2_before ≤ length2_after then
      -- Before is the shorter line.
      if is_closed = false ∧ before = 0 then
        (polygon, to_delete) -- No edge before the short edge; don't remove anything.
      else
        let before_before := previousNotDeleted before to_delete
        match lineLineIntersection (polygon.getD before_before origin) before_position
            vertex_position after_position with
        | none => (polygon, to_delete) -- Lines are parallel.
        | some intersection =>
          if getDist2FromLine intersection before_position vertex_position
              ≤ s.max_deviation * s.max_deviation then
            (polygon.set before intersection, to_delete.set vertex true)
          else (polygon, to_delete)
    else
      if is_closed = false ∧ after = polygon.length - 1 then
        (polygon, to_delete) -- No edge after the short edge; don't remove anything.
      else
        let after_after := nextNotDeleted after to_delete
        match lineLineIntersection before_position vertex_position after_position
            (polygon.getD after_after origin) with
        | none => (polygon, to_delete) -- Lines are parallel.
        | some intersection =>
          if getDist2FromLine intersection vertex_position after_position
              ≤ s.max_deviation * s.max_deviation then
            (polygon.set after intersection, to_delete.set vertex true)
          else (polygon, to_delete)

/-- The lazy priority queue of `(index, importance)` pairs, modelled as a plain list.
The C++ comparator orders ascending by importance with ties broken by ascending index,
so the popped element is the least pair in that order; every vertex has at most one
live entry, so equal pairs never compete. -/
def pqLe (a b : Nat × Int) : Bool :=
  decide (a.2 < b.2 ∨ (a.2 = b.2 ∧ a.1 ≤ b.1))

def pqMin : List (Nat × Int) → Option (Nat × Int)
  | [] => none
  | h :: t => some (t.foldl (fun m e => if pqLe m e then m else e) h)

structure SimpState where
  result : List Point
  to_delete : List Bool
  queue : List (Nat × Int)
deriving DecidableEq

/-- One iteration of the C++ while-loop: pop the least entry, recompute its importance,
reinsert if stale, otherwise remove the vertex when within the deviation tolerance. -/
def Simplify.simplifyStep (s : Simplify) (is_closed : Bool) (st : SimpState) : SimpState :=
  match pqMin st.queue with
  | none => st
  | some vertex =>
    let rest := st.queue.erase vertex
    let vertex_importance := s.importance st.result st.to_delete vertex.1 is_closed
    if vertex_importance ≠ vertex.2 then
      { st with queue := (vertex.1, vertex_importance) :: rest } -- Re-insert, updated.
    else if vertex_importance ≤ s.max_deviation * s.max_deviation then
      let rd := s.remove st.result st.to_delete vertex.1 vertex_importance is_closed
      { result := rd.1, to_delete := rd.2, queue := rest }
    else
      { st with queue := rest }

def Simplify.simplifyLoop (s : Simplify) (is_closed : Bool) : Nat → SimpState → SimpState
  | 0, st => st
  | fuel + 1, st =>
    if 3 < st.queue.length then
      s.simplifyLoop is_closed fuel (s.simplifyStep is_closed st)
    else st

/-- Fuel that strictly exceeds the number of iterations of every run below: each
iteration either consumes one queue entry for good or refreshes a stale entry, and a
stale entry can only be reintroduced by one of the at most `n` vertex removals. -/
def simplifyFuel (n : Nat) : Nat := (n + 4) * (n + 4) * (n + 4)

def Simplify.simplify (s : Simplify) (polygon : List Point) (is_closed : Bool) :
    List Point :=
  -- Note: the source comments state the structural minima "for polygon, don't reduce
  -- below 3; for polyline, not below 2", but the expression written in the source is
  -- `is_closed ? 2 : 3`; the embedding follows the source as written.
  let min_size : Nat := if is_closed then 2 else 3
  if polygon.length < min_size then []
  else if polygon.length = min_size then polygon
  else
    let to_delete : List Bool := List.replicate polygon.length false
    let initial : List (Nat × Int) := (List.range polygon.length).map
      (fun i => (i, s.importance polygon to_delete i is_closed))
    let final := s.simplifyLoop is_closed (simplifyFuel polygon.length)
      ⟨polygon, to_delete, initial⟩
    -- Now remove the marked vertices in one sweep.
    (final.result.zip final.to_delete).filterMap
      (fun pd => if pd.2 then none else some pd.1)

/-! ## Distance from a point to a contour (vocabulary for the deviation-bound claim) -/

/-- The squared Euclidean distance from `p` to the closed segment from `a` to `b` is at
most `d2`, stated with cross-multiplied integer arithmetic so that it is exact: when the
projection of `p` falls inside the segment the squared distance is
`|p-a|^2 - dot(b-a, p-a)^2 / |b-a|^2`. -/
def dist2ToSegmentLE (p a b : Point) (d2 : Int) : Prop :=
  if vSize2 (b - a) = 0 then vSize2 (p - a) ≤ d2
  else if dot (b - a) (p - a) ≤ 0 then vSize2 (p - a) ≤ d2
  else if vSize2 (b - a) ≤ dot (b - a) (p - a) then vSize2 (p - b) ≤ d2
  else vSize2 (p - a) * vSize2 (b - a) - dot (b - a) (p - a) ^ 2 ≤ d2 * vSize2 (b - a)

instance (p a b : Point) (d2 : Int) : Decidable (dist2ToSegmentLE p a b d2) := by
  unfold dist2ToSegmentLE
  infer_instance

def contourSegments (contour : List Point) (is_closed : Bool) : List (Point × Point) :=
  if is_closed then contour.zip (contour.rotate 1) else contour.zip contour.tail

/-- `p` lies within (squared) distance `d2` of some segment of the contour. -/
def withinDeviationOfContour (p : Point) (contour : List Point) (is_closed : Bool)
    (d2 : Int) : Prop :=
  ∃ seg ∈ contourSegments contour is_closed, dist2ToSegmentLE p seg.1 seg.2 d2

instance (p : Point) (contour : List Point) (is_closed : Bool) (d2 : Int) :
    Decidable (withinDeviationOfContour p contour is_closed d2) := by
  unfold withinDeviationOfContour
  infer_instance

/-! ## List helper lemmas -/

theorem getD_set_self {α : Type} (l : List α) (i : Nat) (a d : α) (h : i < l.length) :
    (l.set i a).getD i d = a := by
  induction l generalizing i with
  | nil => simp at h
  | cons x xs ih =>
    cases i with
    | zero => rfl
    | succ n => exact ih n (by simpa using h)

theorem getD_set_ne {α : Type} (l : List α) (i j : Nat) (a d : α) (h : i ≠ j) :
    (l.set i a).getD j d = l.getD j d := by
  induction l generalizing i j with
  | nil => rfl
  | cons x xs ih =>
    cases i with
    | zero =>
      cases j with
      | zero => exact absurd rfl h
      | succ m => rfl
    | succ n =>
      cases j with
      | zero => rfl
      | succ m => exact ih n m (fun hh => h (by rw [hh]))

/-- `remove` never clears a marker and marks at most the candidate vertex. -/
theorem remove_to_delete_shape (s : Simplify) (polygon : List Point)
    (to_delete : List Bool) (vertex : Nat) (deviation2 : Int) (is_closed : Bool) :
    (s.remove polygon to_delete vertex deviation2 is_closed).2 = to_delete
    ∨ (s.remove polygon to_delete vertex deviation2 is_closed).2 =
        to_delete.set vertex true := by
  unfold Simplify.remove
  split
  · simp
  · dsimp only
    split
    · simp
    · split
      · split
        · simp
        · split
          · simp
          · split
            · simp
            · simp
      · split
        · simp
        · split
          · simp
          · split
            · simp
            · simp

/-! ## Claims about the simplifier -/

/-- C1 (counterexample): on the open polyline `(0,0), (50,1), (100,0)` with
`max_resolution = 100` and `max_deviation = 2` (so the squared positional tolerance is
`4 ≥ 1`), `simplify` does not return `[(0,0), (100,0)]`: the middle vertex is not
removed. -/
theorem C1_near_colinear_counterexample :
    ¬ ((Simplify.mk 100 2 0).simplify [⟨0, 0⟩, ⟨50, 1⟩, ⟨100, 0⟩] false
        = [⟨0, 0⟩, ⟨100, 0⟩]) := by decide

/-- C1 (amended): for every configuration of the tolerances, simplifying the open
polyline `(0,0), (50,1), (100,0)` returns the three input points unchanged — a
three-vertex open polyline is already at the threshold where the algorithm stops, so
the middle vertex is never considered for removal. -/
theorem C1_near_colinear_unchanged (s : Simplify) :
    s.simplify [⟨0, 0⟩, ⟨50, 1⟩, ⟨100, 0⟩] false = [⟨0, 0⟩, ⟨50, 1⟩, ⟨100, 0⟩] := rfl

/-- C2 (evaluation at the failing inputs): a two-vertex open polyline is erased to the
empty result (the claim and the source's own comments say it should be returned
unchanged, being exactly at the structural minimum of 2), while a two-vertex closed
polygon is returned unchanged (the claim and the comments say degenerate polygons of at
most 2 vertices yield an empty result, and that a closed result never has fewer than 3
vertices). The `is_closed ? 2 : 3` minimum in the source is inverted. -/
theorem C2_structural_minimum_eval :
    (Simplify.mk 10 1 0).simplify [⟨0, 0⟩, ⟨100, 0⟩] false = []
    ∧ (Simplify.mk 10 1 0).simplify [⟨0, 0⟩, ⟨100, 0⟩] true = [⟨0, 0⟩, ⟨100, 0⟩] := by
  decide

/-- C7 (evaluation at the failing input): the two-vertex open polyline
`(0,0), (30,40)` is erased entirely, so its first and last points are absent from the
result, contradicting endpoint protection for open polylines with at least 2
vertices. -/
theorem C7_endpoint_eval :
    (Simplify.mk 10 1 0).simplify [⟨0, 0⟩, ⟨30, 40⟩] false = []
    ∧ Point.mk 0 0 ∉ (Simplify.mk 10 1 0).simplify [⟨0, 0⟩, ⟨30, 40⟩] false := by
  decide

/-- C8 (counterexample): in the closed polygon `(0,0), (50,2), (100,0), (50,-100)` with
`max_resolution = 10` and `max_deviation = 1`, the vertex `(50,2)` deviates from the
line through its neighbors `(0,0)` and `(100,0)` by squared distance `4`, which is at
most `min_resolution² = 25`; four vertices survive (above the structural minimum of 3);
yet the vertex is not deleted — the run returns all four vertices, because the loop
only calls `remove` when the importance also passes the `max_deviation²` gate, so the
noise-floor deletion is not independent of `max_deviation`. -/
theorem C8_noise_floor_counterexample :
    getDist2FromLine ⟨50, 2⟩ ⟨0, 0⟩ ⟨100, 0⟩ ≤ min_resolution * min_resolution
    ∧ (Simplify.mk 10 1 0).simplify [⟨0, 0⟩, ⟨50, 2⟩, ⟨100, 0⟩, ⟨50, -100⟩] true
        = [⟨0, 0⟩, ⟨50, 2⟩, ⟨100, 0⟩, ⟨50, -100⟩] := by decide

/-- C8 (amended): the noise-floor deletion is unconditional only once the removal loop
actually processes the vertex: when the popped entry is fresh, its importance is at most
`min_resolution²` and also passes the loop's `max_deviation²` gate, the step deletes the
vertex — independently of `max_resolution` (the statement quantifies over all
configurations sharing these bounds). -/
theorem C8_noise_floor_gated (s : Simplify) (is_closed : Bool) (st : SimpState)
    (p : Nat × Int)
    (hmin : pqMin st.queue = some p)
    (hfresh : s.importance st.result st.to_delete p.1 is_closed = p.2)
    (hnoise : p.2 ≤ min_resolution * min_resolution)
    (hgate : p.2 ≤ s.max_deviation * s.max_deviation)
    (hlt : p.1 < st.to_delete.length) :
    (s.simplifyStep is_closed st).to_delete.getD p.1 true = true := by
  unfold Simplify.simplifyStep
  rw [hmin]
  dsimp only
  rw [if_neg (fun hne => hne hfresh)]
  rw [if_pos (hfresh ▸ hgate)]
  dsimp only
  unfold Simplify.remove
  rw [if_pos (hfresh ▸ hnoise)]
  exact getD_set_self _ _ _ _ hlt

theorem C8_noise_floor_gated_witness :
    pqMin [((0 : Nat), coordMax), (1, 4), (2, coordMax), (3, coordMax)] = some (1, 4)
    ∧ (Simplify.mk 10 3 0).importance [⟨0, 0⟩, ⟨50, 2⟩, ⟨100, 0⟩, ⟨50, -100⟩]
        [false, false, false, false] 1 true = 4
    ∧ (4 : Int) ≤ min_resolution * min_resolution
    ∧ (4 : Int) ≤ (Simplify.mk 10 3 0).max_deviation * (Simplify.mk 10 3 0).max_deviation
    ∧ 1 < ([false, false, false, false] : List Bool).length
    ∧ ((Simplify.mk 10 3 0).simplifyStep true
        ⟨[⟨0, 0⟩, ⟨50, 2⟩, ⟨100, 0⟩, ⟨50, -100⟩], [false, false, false, false],
          [(0, coordMax), (1, 4), (2, coordMax), (3, coordMax)]⟩).to_delete.getD 1 true
        = true :=
  ⟨by decide, by decide, by decide, by decide, by decide,
    C8_noise_floor_gated (Simplify.mk 10 3 0) true
      ⟨[⟨0, 0⟩, ⟨50, 2⟩, ⟨100, 0⟩, ⟨50, -100⟩], [false, false, false, false],
        [(0, coordMax), (1, 4), (2, coordMax), (3, coordMax)]⟩ (1, 4)
      (by decide) (by decide) (by decide) (by decide) (by decide)⟩

/-- C9 (counterexample): in the closed polygon `(0,0), (100,1), (10,0), (50,-200)` with
`max_resolution = 10` and `max_deviation = 3`, the run removes the vertex `(100,1)`
(its squared deviation from the line through its then-neighbors `(0,0)` and `(10,0)` is
1, within all tolerances), but its distance to every segment of the final simplified
contour exceeds `max_deviation = 3`: the nearest contour point is roughly 90 units
away. The deviation bound w.r.t. the final contour is false. -/
theorem C9_deviation_bound_counterexample :
    (Simplify.mk 10 3 0).simplify [⟨0, 0⟩, ⟨100, 1⟩, ⟨10, 0⟩, ⟨50, -200⟩] true
        = [⟨0, 0⟩, ⟨10, 0⟩, ⟨50, -200⟩]
    ∧ Point.mk 100 1 ∉
        (Simplify.mk 10 3 0).simplify [⟨0, 0⟩, ⟨100, 1⟩, ⟨10, 0⟩, ⟨50, -200⟩] true
    ∧ ¬ withinDeviationOfContour ⟨100, 1⟩
        ((Simplify.mk 10 3 0).simplify [⟨0, 0⟩, ⟨100, 1⟩, ⟨10, 0⟩, ⟨50, -200⟩] true)
        true (3 * 3) := by decide

/-- C9 (amended): the deviation bound holds at removal time against the then-current
contour: whenever one step of the removal loop marks a vertex deleted, that vertex's
importance — for a non-endpoint vertex, its squared perpendicular distance to the line
through its current surviving neighbors — was at most `max_deviation²` in the state the
step started from. -/
theorem C9_deviation_at_removal_time (s : Simplify) (is_closed : Bool) (st : SimpState)
    (v : Nat)
    (h1 : st.to_delete.getD v true = false)
    (h2 : (s.simplifyStep is_closed st).to_delete.getD v true = true) :
    s.importance st.result st.to_delete v is_closed
      ≤ s.max_deviation * s.max_deviation := by
  unfold Simplify.simplifyStep at h2
  cases hm : pqMin st.queue with
  | none =>
    rw [hm] at h2
    rw [h1] at h2
    exact absurd h2 (by simp)
  | some p =>
    rw [hm] at h2
    dsimp only at h2
    by_cases hst : s.importance st.result st.to_delete p.1 is_closed ≠ p.2
    · rw [if_pos hst] at h2
      rw [h1] at h2
      exact absurd h2 (by simp)
    · rw [if_neg hst] at h2
      by_cases hgate : s.importance st.result st.to_delete p.1 is_closed
          ≤ s.max_deviation * s.max_deviation
      · rw [if_pos hgate] at h2
        dsimp only at h2
        rcases remove_to_delete_shape s st.result st.to_delete p.1
            (s.importance st.result st.to_delete p.1 is_closed) is_closed with hsh | hsh
        · rw [hsh, h1] at h2
          exact absurd h2 (by simp)
        · rw [hsh] at h2
          by_cases hv : v = p.1
          · rw [hv]
            exact hgate
          · rw [getD_set_ne _ _ _ _ _ (fun he => hv he.symm), h1] at h2
            exact absurd h2 (by simp)
      · rw [if_neg hgate] at h2
        rw [h1] at h2
        exact absurd h2 (by simp)

theorem C9_deviation_at_removal_time_witness :
    (([false, false, false, false] : List Bool).getD 1 true = false)
    ∧ ((Simplify.mk 10 3 0).simplifyStep true
        ⟨[⟨0, 0⟩, ⟨100, 1⟩, ⟨10, 0⟩, ⟨50, -200⟩], [false, false, false, false],
          [(0, coordMax), (1, 1), (2, coordMax), (3, coordMax)]⟩).to_delete.getD 1 true
        = true
    ∧ (Simplify.mk 10 3 0).importance [⟨0, 0⟩, ⟨100, 1⟩, ⟨10, 0⟩, ⟨50, -200⟩]
        [false, false, false, false] 1 true
        ≤ (Simplify.mk 10 3 0).max_deviation * (Simplify.mk 10 3 0).max_deviation :=
  ⟨by decide, by decide,
    C9_deviation_at_removal_time (Simplify.mk 10 3 0) true
      ⟨[⟨0, 0⟩, ⟨100, 1⟩, ⟨10, 0⟩, ⟨50, -200⟩], [false, false, false, false],
        [(0, coordMax), (1, 1), (2, coordMax), (3, coordMax)]⟩ 1
      (by decide) (by decide)⟩

/-- The frame property of `remove` claimed by C10, stated about a result pair `r`:
markers are only ever extended and only at the candidate index; the unconditional
delete and the both-segments-short delete move no vertex; and every branch either
leaves all positions unchanged (with or without marking the candidate deleted) or marks
the candidate deleted and relocates exactly the surviving endpoint of the shorter
adjacent edge to the computed intersection point. -/
def removeFrameSpec (s : Simplify) (polygon : List Point) (to_delete : List Bool)
    (vertex : Nat) (deviation2 : Int) (r : List Point × List Bool) : Prop :=
  let before := previousNotDeleted vertex to_delete
  let after := nextNotDeleted vertex to_delete
  let vertex_position := polygon.getD vertex origin
  let before_position := polygon.getD before origin
  let after_position := polygon.getD after origin
  let length2_before := vSize2 (vertex_position - before_position)
  let length2_after := vSize2 (vertex_position - after_position)
  (r.2 = to_delete ∨ r.2 = to_delete.set vertex true)
  ∧ (deviation2 ≤ min_resolution * min_resolution → r.1 = polygon)
  ∧ (length2_before ≤ s.max_resolution * s.max_resolution →
      length2_after ≤ s.max_resolution * s.max_resolution → r.1 = polygon)
  ∧ ((r.1 = polygon ∧ r.2 = to_delete)
    ∨ (r.1 = polygon ∧ r.2 = to_delete.set vertex true)
    ∨ (r.2 = to_delete.set vertex true
      ∧ ∃ intersection : Point,
          (length2_before ≤ length2_after
            ∧ lineLineIntersection (polygon.getD (previousNotDeleted before to_delete) origin)
                before_position vertex_position after_position = some intersection
            ∧ r.1 = polygon.set before intersection)
          ∨ (length2_after < length2_before
            ∧ lineLineIntersection before_position vertex_position after_position
                (polygon.getD (nextNotDeleted after to_delete) origin) = some intersection
            ∧ r.1 = polygon.set after intersection)))

/-- C10: every call to `remove` changes the position of at most one vertex — in the
intersection-relocation branch exactly the surviving endpoint of the short edge moves
to the intersection point — and in all other branches (unconditional delete,
both-segments-short delete, and every abort branch) no position changes; in every
branch at most the candidate's `to_delete` flag is set and none is ever cleared. -/
theorem C10_remove_frame (s : Simplify) (polygon : List Point) (to_delete : List Bool)
    (vertex : Nat) (deviation2 : Int) (is_closed : Bool) :
    removeFrameSpec s polygon to_delete vertex deviation2
      (s.remove polygon to_delete vertex deviation2 is_closed) := by
  unfold removeFrameSpec Simplify.remove
  dsimp only
  split
  · exact ⟨Or.inr rfl, fun _ => rfl, fun _ _ => rfl, Or.inr (Or.inl ⟨rfl, rfl⟩)⟩
  · rename_i h1
    split
    · exact ⟨Or.inr rfl, fun h => absurd h h1, fun _ _ => rfl, Or.inr (Or.inl ⟨rfl, rfl⟩)⟩
    · rename_i h2
      split
      · rename_i h3
        split
        · exact ⟨Or.inl rfl, fun h => absurd h h1, fun ha hb => absurd ⟨ha, hb⟩ h2,
            Or.inl ⟨rfl, rfl⟩⟩
        · split
          · exact ⟨Or.inl rfl, fun h => absurd h h1, fun ha hb => absurd ⟨ha, hb⟩ h2,
              Or.inl ⟨rfl, rfl⟩⟩
          · rename_i intersection heq
            split
            · exact ⟨Or.inr rfl, fun h => absurd h h1, fun ha hb => absurd ⟨ha, hb⟩ h2,
                Or.inr (Or.inr ⟨rfl, intersection, Or.inl ⟨h3, heq, rfl⟩⟩)⟩
            · exact ⟨Or.inl rfl, fun h => absurd h h1, fun ha hb => absurd ⟨ha, hb⟩ h2,
                Or.inl ⟨rfl, rfl⟩⟩
      · rename_i h3
        split
        · exact ⟨Or.inl rfl, fun h => absurd h h1, fun ha hb => absurd ⟨ha, hb⟩ h2,
            Or.inl ⟨rfl, rfl⟩⟩
        · split
          · exact ⟨Or.inl rfl, fun h => absurd h h1, fun ha hb => absurd ⟨ha, hb⟩ h2,
              Or.inl ⟨rfl, rfl⟩⟩
          · rename_i intersection heq
            split
            · exact ⟨Or.inr rfl, fun h => absurd h h1, fun ha hb => absurd ⟨ha, hb⟩ h2,
                Or.inr (Or.inr ⟨rfl, intersection, Or.inr ⟨not_le.mp h3, heq, rfl⟩⟩)⟩
            · exact ⟨Or.inl rfl, fun h => absurd h h1, fun ha hb => absurd ⟨ha, hb⟩ h2,
                Or.inl ⟨rfl, rfl⟩⟩

end CuraEngine
